import Mathlib

/-!
Shallow embedding of the core of the RAG chatbot codebase:
the multi-round tool-orchestration loop of `backend/ai_generator.py`
(`AIGenerator.generate_response`, `_extract_text_response`,
`_execute_all_tools`), the search-filter builder and `SearchResults`
invariants of the retrieval store, and the session exchange log.

The language-model oracle is abstracted as a function from the call index
to either a transport error (an exception raised by
`client.messages.create`) or a response; the tool manager is abstracted
as a function from tool name and keyword arguments to either an
exception or a result string.
-/

namespace RagChatbot

/-- A keyword-argument map for a tool call (the `content_block.input` dict). -/
abbrev ToolInput := List (String × String)

/-- One content block of an oracle response, as produced by the messages API:
either a text block (`type == "text"`, carrying `.text`) or a tool-use block
(`type == "tool_use"`, carrying `.id`, `.name`, `.input`). -/
inductive ContentBlock where
  | text (s : String)
  | toolUse (id : String) (name : String) (input : ToolInput)
  deriving Repr, DecidableEq

/-- A response from the oracle: `stop_reason` plus the list of content blocks. -/
structure OracleResponse where
  stop_reason : String
  content : List ContentBlock
  deriving Repr, DecidableEq

/-- The oracle (`self.client.messages.create`): for each successive call index,
either raises a transport error (modelled as `.error e`, `e` the opaque
exception payload) or returns a response. -/
abbrev Oracle := Nat → Except String OracleResponse

/-- The tool manager's `execute_tool(name, **kwargs)`: either raises
(`.error e` with `str(e) = e`) or returns a result string. -/
abbrev ToolManager := String → ToolInput → Except String String

/-- One entry of the `tool_results` list built by `_execute_all_tools`:
a `{"type": "tool_result", ...}` dict. `is_error` is present (True) exactly
on the per-call exception path. -/
structure ToolResult where
  tool_use_id : String
  content : String
  is_error : Bool
  deriving Repr, DecidableEq

/-- The content of one transcript message. -/
inductive MessageContent where
  | text (s : String)
  | blocks (bs : List ContentBlock)
  | toolResults (rs : List ToolResult)
  deriving Repr, DecidableEq

/-- One message of the growing transcript (`messages` list). -/
structure Message where
  role : String
  content : MessageContent
  deriving Repr, DecidableEq

/-- One API call as observed at the oracle boundary: the transcript sent and
whether tool definitions (plus `tool_choice: auto`) were included in the
request parameters. -/
structure ApiCall where
  messages : List Message
  hasTools : Bool
  deriving Repr, DecidableEq

/-- `AIGenerator._extract_text_response`, inner loop over `response.content`:
returns the first block whose `type` is `"text"` (tool-use blocks have no
`text` attribute, so the `elif hasattr(content_block, 'text')` arm does not
fire for them); falls back to the fixed string when no block yields text. -/
def extractTextFromBlocks : List ContentBlock → String
  | [] => "I was unable to generate a response."
  | ContentBlock.text s :: _ => s
  | ContentBlock.toolUse _ _ _ :: rest => extractTextFromBlocks rest

/-- `AIGenerator._extract_text_response`. -/
def extractTextResponse (response : OracleResponse) : String :=
  extractTextFromBlocks response.content

/-- `AIGenerator._execute_all_tools`: walk `response.content`; for every
`tool_use` block execute the tool, catching a per-call exception into an
error-tagged result; return `None` when no results were collected. -/
def executeAllTools (response : OracleResponse) (toolManager : ToolManager) :
    Option (List ToolResult) :=
  let tool_results := response.content.filterMap fun content_block =>
    match content_block with
    | ContentBlock.text _ => none
    | ContentBlock.toolUse id name input =>
      match toolManager name input with
      | Except.ok tool_result =>
        some { tool_use_id := id, content := tool_result, is_error := false }
      | Except.error e =>
        some { tool_use_id := id,
               content := "Error executing tool: " ++ e,
               is_error := true }
  if tool_results.isEmpty then none else some tool_results

/-- The `while current_round < config.MAX_TOOL_ROUNDS` loop of
`generate_response`, recursing on the number of remaining rounds, followed
by the final no-tools call (Condition 6) when the rounds are exhausted.
Returns the result (`.error e` when a transport error propagates out of an
active round, `.ok text` otherwise) together with the trace of API calls
made. `toolsGiven` models the truthiness of the `tools` parameter. -/
def roundLoop (oracle : Oracle) (toolsGiven : Bool)
    (toolManager : Option ToolManager) (messages : List Message)
    (callIdx : Nat) : Nat → Except String String × List ApiCall
  | 0 =>
    -- Condition 6: max rounds reached, final API call without tools
    match oracle callIdx with
    | Except.error _ =>
      (Except.ok "I've gathered information but encountered an error forming a response.",
       [{ messages := messages, hasTools := false }])
    | Except.ok final_response =>
      (Except.ok (extractTextResponse final_response),
       [{ messages := messages, hasTools := false }])
  | remaining + 1 =>
    let thisCall : ApiCall := { messages := messages, hasTools := toolsGiven }
    match oracle callIdx with
    | Except.error e =>
      -- the `except` clause re-raises API errors to the caller
      (Except.error e, [thisCall])
    | Except.ok response =>
      if response.stop_reason ≠ "tool_use" then
        -- Condition 1: final answer, no tool use
        (Except.ok (extractTextResponse response), [thisCall])
      else
        match toolManager with
        | none =>
          -- Condition 3: no tool manager provided
          (Except.ok (extractTextResponse response), [thisCall])
        | some tm =>
          let messages1 := messages ++
            [{ role := "assistant", content := MessageContent.blocks response.content }]
          match executeAllTools response tm with
          | none =>
            -- Condition 4: no valid tool results, break the loop
            (Except.ok "I encountered an error while searching. Please try rephrasing your question.",
             [thisCall])
          | some tool_results =>
            let messages2 := messages1 ++
              [{ role := "user", content := MessageContent.toolResults tool_results }]
            let rest := roundLoop oracle toolsGiven toolManager messages2
              (callIdx + 1) remaining
            (rest.1, thisCall :: rest.2)

/-- The user message seeding every transcript:
`messages = [{"role": "user", "content": query}]`. -/
def seedMsg (query : String) : Message :=
  { role := "user", content := MessageContent.text query }

/-- `AIGenerator.generate_response`: seeds the transcript with the user query
and runs the round loop with `maxRounds = config.MAX_TOOL_ROUNDS`. -/
def generate_response (oracle : Oracle) (query : String) (toolsGiven : Bool)
    (toolManager : Option ToolManager) (maxRounds : Nat) :
    Except String String × List ApiCall :=
  roundLoop oracle toolsGiven toolManager [seedMsg query] 0 maxRounds

/-- Is this block a `tool_use` block? -/
def ContentBlock.isToolUse : ContentBlock → Bool
  | ContentBlock.toolUse _ _ _ => true
  | ContentBlock.text _ => false

/-- The response has `stop_reason == "tool_use"` and at least one `tool_use`
content block, so the loop executes tools and continues to the next round. -/
def requestsTools (response : OracleResponse) : Bool :=
  response.stop_reason == "tool_use" && response.content.any ContentBlock.isToolUse

/-! ## Retrieval store: filter builder and SearchResults

`vector_store.py` is not present in the checkout (only its unit tests are),
so the definitions below are modelled from the spec and checked against the
expectations laid down in `tests/unit/test_vector_store.py`. -/

/-- One ChromaDB `where`-filter, as built by `VectorStore._build_filter`:
either a single equality constraint on a metadata key, or an `$and` list of
clauses. -/
inductive WhereClause where
  | course_title (x : String)
  | lesson_number (n : Int)
  | opAnd (clauses : List WhereClause)

/-- Modelled from the spec: `VectorStore._build_filter(course_title,
lesson_number)` of the missing `vector_store.py`. Filter construction:
no filters → no constraint (`None`); course only → `{"course_title": X}`;
lesson only → `{"lesson_number": N}`; both → `{"$and": [{"course_title": X},
{"lesson_number": N}]}` (clause order as inspected by
`test_build_filter_with_both_params`). -/
def build_filter (course_title : Option String) (lesson_number : Option Int) :
    Option WhereClause :=
  match course_title, lesson_number with
  | none, none => none
  | some x, none => some (WhereClause.course_title x)
  | none, some n => some (WhereClause.lesson_number n)
  | some x, some n =>
    some (WhereClause.opAnd
      [WhereClause.course_title x, WhereClause.lesson_number n])

/-- Metadata attached to one retrieved chunk. -/
structure ChunkMeta where
  course_title : String
  lesson_number : Option Int
  deriving Repr, DecidableEq

/-- The `SearchResults` dataclass of `vector_store.py` (shape taken from its
unit tests): parallel lists of documents, metadata and distances, plus an
optional error string. Distances are opaque similarity scores. -/
structure SearchResults where
  documents : List String
  metadata : List ChunkMeta
  distances : List Int
  error : Option String
  deriving Repr, DecidableEq

/-- `SearchResults.empty(error_msg)`: an error-carrying empty result
(`test_search_results_empty_vs_error`). -/
def SearchResults.emptyErr (error_msg : String) : SearchResults :=
  { documents := [], metadata := [], distances := [], error := some error_msg }

/-- A successful result set built from index hits, error `None`. -/
def SearchResults.ofHits (hits : List (String × ChunkMeta × Int)) : SearchResults :=
  { documents := hits.map fun h => h.1
    metadata := hits.map fun h => h.2.1
    distances := hits.map fun h => h.2.2
    error := none }

/-- The underlying vector index as seen by `search`: fuzzy course-name
resolution against the catalog, and a similarity query against the content
collection that can also fail with an infrastructure error. -/
structure VectorIndex where
  resolveCourseName : String → Option String
  runQuery : String → Option WhereClause → Nat →
    Except String (List (String × ChunkMeta × Int))

/-- Modelled from the spec: `VectorStore.search(query, course_name,
lesson_number, limit)` of the missing `vector_store.py`. If a course name is
given it is resolved first; failed resolution yields the error result
"No course found matching {name}" with no documents. Otherwise the
similarity query runs with the built filter; an infrastructure failure is
caught into an error result, a successful (possibly empty) hit list into an
error-free result. -/
def search (idx : VectorIndex) (query : String) (course_name : Option String)
    (lesson_number : Option Int) (limit : Nat) : SearchResults :=
  match course_name with
  | some name =>
    match idx.resolveCourseName name with
    | none => SearchResults.emptyErr ("No course found matching '" ++ name ++ "'")
    | some course_title =>
      match idx.runQuery query (build_filter (some course_title) lesson_number) limit with
      | Except.error e => SearchResults.emptyErr ("Search error: " ++ e)
      | Except.ok hits => SearchResults.ofHits hits
  | none =>
    match idx.runQuery query (build_filter none lesson_number) limit with
    | Except.error e => SearchResults.emptyErr ("Search error: " ++ e)
    | Except.ok hits => SearchResults.ofHits hits

/-! ## Session store

`session_manager.py` is also absent from the checkout (only its callers in
tests are), so the exchange log is modelled from the spec: an ordered list
of (query, answer) exchanges capped at a configured maximum count, oldest
evicted first. -/

/-- One question/answer exchange of a session. -/
structure Exchange where
  query : String
  answer : String
  deriving Repr, DecidableEq

/-- Modelled from the spec: `SessionManager.add_exchange(id, query, answer)`
of the missing `session_manager.py`, restricted to one session's log:
append the exchange, then evict oldest entries while the log exceeds the
configured maximum exchange count. -/
def add_exchange (maxExchanges : Nat) (log : List Exchange) (q a : String) :
    List Exchange :=
  let log1 := log ++ [{ query := q, answer := a }]
  if log1.length > maxExchanges then log1.drop (log1.length - maxExchanges)
  else log1

/-- Adding a batch of exchanges in order to one session's log. -/
def addExchanges (maxExchanges : Nat) (log : List Exchange)
    (es : List Exchange) : List Exchange :=
  es.foldl (fun l e => add_exchange maxExchanges l e.query e.answer) log

/-! ## Derived notions used by the statements -/

/-- Extract the (id, name, input) of a `tool_use` block. -/
def ContentBlock.getToolUse : ContentBlock → Option (String × String × ToolInput)
  | ContentBlock.toolUse id name input => some (id, name, input)
  | ContentBlock.text _ => none

/-- The tool calls requested by a response, in emission order. -/
def toolCallsOf (response : OracleResponse) : List (String × String × ToolInput) :=
  response.content.filterMap ContentBlock.getToolUse

/-- Running one requested tool call through the manager, catching a raise
into an error-tagged result (the body of the loop in `_execute_all_tools`). -/
def runOneTool (toolManager : ToolManager) (c : String × String × ToolInput) :
    ToolResult :=
  match toolManager c.2.1 c.2.2 with
  | Except.ok tool_result =>
    { tool_use_id := c.1, content := tool_result, is_error := false }
  | Except.error e =>
    { tool_use_id := c.1, content := "Error executing tool: " ++ e,
      is_error := true }

/-- The result returned once the round counter has exhausted the budget:
the text of the final no-tools call, or the fixed fallback apology if that
call raises. -/
def forcedFinalResult (oracle : Oracle) (callIdx : Nat) : Except String String :=
  match oracle callIdx with
  | Except.error _ =>
    Except.ok "I've gathered information but encountered an error forming a response."
  | Except.ok final_response =>
    Except.ok (extractTextResponse final_response)

/-! ## Lemmas about `_execute_all_tools` -/

theorem filterMap_execute (tm : ToolManager) (bs : List ContentBlock) :
    (bs.filterMap fun content_block =>
      match content_block with
      | ContentBlock.text _ => none
      | ContentBlock.toolUse id name input =>
        match tm name input with
        | Except.ok tool_result =>
          some { tool_use_id := id, content := tool_result, is_error := false }
        | Except.error e =>
          some { tool_use_id := id,
                 content := "Error executing tool: " ++ e,
                 is_error := true }) =
      (bs.filterMap ContentBlock.getToolUse).map (runOneTool tm) := by
  induction bs with
  | nil => rfl
  | cons b rest ih =>
    cases b with
    | text s => simpa [ContentBlock.getToolUse, List.filterMap_cons] using ih
    | toolUse id name input =>
      simp only [List.filterMap_cons, ContentBlock.getToolUse, List.map_cons]
      cases h : tm name input with
      | ok r => simp only [h, runOneTool, List.cons.injEq]; exact ⟨trivial, ih⟩
      | error e => simp only [h, runOneTool, List.cons.injEq]; exact ⟨trivial, ih⟩

theorem executeAllTools_eq (response : OracleResponse) (tm : ToolManager) :
    executeAllTools response tm =
      if toolCallsOf response = [] then none
      else some ((toolCallsOf response).map (runOneTool tm)) := by
  unfold executeAllTools toolCallsOf
  rw [filterMap_execute]
  cases response.content.filterMap ContentBlock.getToolUse with
  | nil => rfl
  | cons c cs => rfl

theorem executeAllTools_eq_none (response : OracleResponse) (tm : ToolManager) :
    executeAllTools response tm = none ↔ toolCallsOf response = [] := by
  rw [executeAllTools_eq]
  by_cases h : toolCallsOf response = [] <;> simp [h]

theorem toolCallsOf_nil_iff (response : OracleResponse) :
    toolCallsOf response = [] ↔
      response.content.any ContentBlock.isToolUse = false := by
  unfold toolCallsOf
  rw [List.filterMap_eq_nil_iff]
  simp only [List.any_eq_false]
  constructor
  · intro h b hb
    have := h b hb
    cases b with
    | text s => simp [ContentBlock.isToolUse]
    | toolUse id name input => simp [ContentBlock.getToolUse] at this
  · intro h b hb
    have := h b hb
    cases b with
    | text s => simp [ContentBlock.getToolUse]
    | toolUse id name input => simp [ContentBlock.isToolUse] at this

/-! ## Step lemmas for the round loop -/

theorem roundLoop_transport (oracle : Oracle) (tg : Bool)
    (tm : Option ToolManager) (msgs : List Message) (callIdx r : Nat)
    (e : String) (h : oracle callIdx = Except.error e) :
    roundLoop oracle tg tm msgs callIdx (r + 1) =
      (Except.error e, [{ messages := msgs, hasTools := tg }]) := by
  simp [roundLoop, h]

theorem roundLoop_direct (oracle : Oracle) (tg : Bool)
    (tm : Option ToolManager) (msgs : List Message) (callIdx r : Nat)
    (resp : OracleResponse) (h : oracle callIdx = Except.ok resp)
    (hstop : resp.stop_reason ≠ "tool_use") :
    roundLoop oracle tg tm msgs callIdx (r + 1) =
      (Except.ok (extractTextResponse resp),
       [{ messages := msgs, hasTools := tg }]) := by
  simp [roundLoop, h, hstop]

theorem roundLoop_noManager (oracle : Oracle) (tg : Bool)
    (msgs : List Message) (callIdx r : Nat)
    (resp : OracleResponse) (h : oracle callIdx = Except.ok resp)
    (hstop : resp.stop_reason = "tool_use") :
    roundLoop oracle tg none msgs callIdx (r + 1) =
      (Except.ok (extractTextResponse resp),
       [{ messages := msgs, hasTools := tg }]) := by
  simp [roundLoop, h, hstop]

theorem roundLoop_noResults (oracle : Oracle) (tg : Bool) (tm : ToolManager)
    (msgs : List Message) (callIdx r : Nat)
    (resp : OracleResponse) (h : oracle callIdx = Except.ok resp)
    (hstop : resp.stop_reason = "tool_use")
    (hnone : executeAllTools resp tm = none) :
    roundLoop oracle tg (some tm) msgs callIdx (r + 1) =
      (Except.ok "I encountered an error while searching. Please try rephrasing your question.",
       [{ messages := msgs, hasTools := tg }]) := by
  simp [roundLoop, h, hstop, hnone]

theorem roundLoop_continue (oracle : Oracle) (tg : Bool) (tm : ToolManager)
    (msgs : List Message) (callIdx r : Nat)
    (resp : OracleResponse) (rs : List ToolResult)
    (h : oracle callIdx = Except.ok resp)
    (hstop : resp.stop_reason = "tool_use")
    (hsome : executeAllTools resp tm = some rs) :
    roundLoop oracle tg (some tm) msgs callIdx (r + 1) =
      ((roundLoop oracle tg (some tm)
          (msgs ++ [{ role := "assistant", content := MessageContent.blocks resp.content },
                    { role := "user", content := MessageContent.toolResults rs }])
          (callIdx + 1) r).1,
        { messages := msgs, hasTools := tg } ::
        (roundLoop oracle tg (some tm)
          (msgs ++ [{ role := "assistant", content := MessageContent.blocks resp.content },
                    { role := "user", content := MessageContent.toolResults rs }])
          (callIdx + 1) r).2) := by
  simp [roundLoop, h, hstop, hsome]

theorem roundLoop_head (oracle : Oracle) (tg : Bool)
    (tm : Option ToolManager) (msgs : List Message) (callIdx r : Nat) :
    ∃ rest, (roundLoop oracle tg tm msgs callIdx (r + 1)).2 =
      { messages := msgs, hasTools := tg } :: rest := by
  cases h : oracle callIdx with
  | error e => exact ⟨[], by simp [roundLoop_transport oracle tg tm msgs callIdx r e h]⟩
  | ok resp =>
    by_cases hstop : resp.stop_reason = "tool_use"
    · cases tm with
      | none => exact ⟨[], by simp [roundLoop_noManager oracle tg msgs callIdx r resp h hstop]⟩
      | some mgr =>
        cases hexec : executeAllTools resp mgr with
        | none =>
          exact ⟨[], by
            simp [roundLoop_noResults oracle tg mgr msgs callIdx r resp h hstop hexec]⟩
        | some rs =>
          refine ⟨(roundLoop oracle tg (some mgr)
            (msgs ++ [{ role := "assistant", content := MessageContent.blocks resp.content },
                      { role := "user", content := MessageContent.toolResults rs }])
            (callIdx + 1) r).2, ?_⟩
          rw [roundLoop_continue oracle tg mgr msgs callIdx r resp rs h hstop hexec]
    · exact ⟨[], by simp [roundLoop_direct oracle tg tm msgs callIdx r resp h hstop]⟩

/-- The round loop makes at most `r + 1` oracle calls, of which at most `r`
carry tool definitions. -/
theorem roundLoop_calls_bound (oracle : Oracle) (tg : Bool)
    (tm : Option ToolManager) :
    ∀ (r : Nat) (msgs : List Message) (callIdx : Nat),
      (roundLoop oracle tg tm msgs callIdx r).2.length ≤ r + 1 ∧
      (roundLoop oracle tg tm msgs callIdx r).2.countP
        (fun c => c.hasTools) ≤ r := by
  intro r
  induction r with
  | zero =>
    intro msgs callIdx
    cases h : oracle callIdx with
    | error e => simp [roundLoop, h, List.countP_cons, List.countP_nil]
    | ok resp => simp [roundLoop, h, List.countP_cons, List.countP_nil]
  | succ r ih =>
    intro msgs callIdx
    cases h : oracle callIdx with
    | error e =>
      rw [roundLoop_transport oracle tg tm msgs callIdx r e h]
      refine ⟨by simp, ?_⟩
      cases tg <;> simp [List.countP_cons, List.countP_nil]
    | ok resp =>
      by_cases hstop : resp.stop_reason = "tool_use"
      · cases tm with
        | none =>
          rw [roundLoop_noManager oracle tg msgs callIdx r resp h hstop]
          refine ⟨by simp, ?_⟩
          cases tg <;> simp [List.countP_cons, List.countP_nil]
        | some mgr =>
          cases hexec : executeAllTools resp mgr with
          | none =>
            rw [roundLoop_noResults oracle tg mgr msgs callIdx r resp h hstop hexec]
            refine ⟨by simp, ?_⟩
            cases tg <;> simp [List.countP_cons, List.countP_nil]
          | some rs =>
            rw [roundLoop_continue oracle tg mgr msgs callIdx r resp rs h hstop hexec]
            have hrec := ih (msgs ++
              [{ role := "assistant", content := MessageContent.blocks resp.content },
               { role := "user", content := MessageContent.toolResults rs }])
              (callIdx + 1)
            rcases hrec with ⟨h1, h2⟩
            constructor
            · simp only [List.length_cons]; omega
            · rw [List.countP_cons]
              cases tg <;> simp only [if_true, if_false] <;> simp <;> omega
      · rw [roundLoop_direct oracle tg tm msgs callIdx r resp h hstop]
        refine ⟨by simp, ?_⟩
        cases tg <;> simp [List.countP_cons, List.countP_nil]

theorem requestsTools_stop (resp : OracleResponse)
    (h : requestsTools resp = true) : resp.stop_reason = "tool_use" := by
  unfold requestsTools at h
  rw [Bool.and_eq_true] at h
  exact eq_of_beq h.1

theorem requestsTools_executeAllTools (resp : OracleResponse)
    (mgr : ToolManager) (h : requestsTools resp = true) :
    executeAllTools resp mgr =
      some ((toolCallsOf resp).map (runOneTool mgr)) := by
  unfold requestsTools at h
  rw [Bool.and_eq_true] at h
  have hne : toolCallsOf resp ≠ [] := by
    intro hnil
    rw [toolCallsOf_nil_iff] at hnil
    rw [hnil] at h
    exact Bool.false_ne_true h.2
  rw [executeAllTools_eq]
  simp [hne]

/-- When the first `r` oracle responses all request tools, the loop spends
all `r` rounds and ends with the forced no-tools final call: `r + 1` calls
in total, tool definitions on every call but the last, each call's
transcript extending the seed by two messages per finished round. -/
theorem roundLoop_allRequest (oracle : Oracle) (tg : Bool) (mgr : ToolManager) :
    ∀ (r : Nat) (msgs : List Message) (callIdx : Nat),
      (∀ i, i < r → ∃ resp, oracle (callIdx + i) = Except.ok resp ∧
        requestsTools resp = true) →
      (roundLoop oracle tg (some mgr) msgs callIdx r).1 =
          forcedFinalResult oracle (callIdx + r) ∧
      (roundLoop oracle tg (some mgr) msgs callIdx r).2.length = r + 1 ∧
      ∀ j (hj : j < (roundLoop oracle tg (some mgr) msgs callIdx r).2.length),
        ((roundLoop oracle tg (some mgr) msgs callIdx r).2.get ⟨j, hj⟩).hasTools
            = (decide (j < r) && tg) ∧
        ∃ extra, ((roundLoop oracle tg (some mgr) msgs callIdx r).2.get
            ⟨j, hj⟩).messages = msgs ++ extra ∧ extra.length = 2 * j := by
  intro r
  induction r with
  | zero =>
    intro msgs callIdx _
    cases h : oracle callIdx with
    | error e =>
      refine ⟨by simp [roundLoop, forcedFinalResult, h], by simp [roundLoop, h], ?_⟩
      intro j hj
      have hj1 : j = 0 := by
        simp only [roundLoop, h, List.length_singleton] at hj
        omega
      subst hj1
      exact ⟨by simp [roundLoop, h], [], by simp [roundLoop, h], rfl⟩
    | ok resp =>
      refine ⟨by simp [roundLoop, forcedFinalResult, h], by simp [roundLoop, h], ?_⟩
      intro j hj
      have hj1 : j = 0 := by
        simp only [roundLoop, h, List.length_singleton] at hj
        omega
      subst hj1
      exact ⟨by simp [roundLoop, h], [], by simp [roundLoop, h], rfl⟩
  | succ r ih =>
    intro msgs callIdx hreq
    obtain ⟨resp, hok, hreqt⟩ := hreq 0 (Nat.succ_pos r)
    rw [Nat.add_zero] at hok
    have hstop := requestsTools_stop resp hreqt
    have hexec := requestsTools_executeAllTools resp mgr hreqt
    rw [roundLoop_continue oracle tg mgr msgs callIdx r resp _ hok hstop hexec]
    have hshift : ∀ i, i < r → ∃ resp2, oracle (callIdx + 1 + i) = Except.ok resp2 ∧
        requestsTools resp2 = true := by
      intro i hi
      have := hreq (i + 1) (by omega)
      rwa [show callIdx + (i + 1) = callIdx + 1 + i by omega] at this
    obtain ⟨ih1, ih2, ih3⟩ := ih (msgs ++
      [{ role := "assistant", content := MessageContent.blocks resp.content },
       { role := "user",
         content := MessageContent.toolResults ((toolCallsOf resp).map (runOneTool mgr)) }])
      (callIdx + 1) hshift
    refine ⟨?_, ?_, ?_⟩
    · rw [ih1]
      rw [show callIdx + 1 + r = callIdx + (r + 1) by omega]
    · simp only [List.length_cons, ih2]
    · intro j hj
      match j with
      | 0 =>
        refine ⟨by simp, [], by simp, rfl⟩
      | k + 1 =>
        simp only [List.length_cons] at hj
        have hk : k < (roundLoop oracle tg (some mgr) (msgs ++
          [{ role := "assistant", content := MessageContent.blocks resp.content },
           { role := "user",
             content := MessageContent.toolResults ((toolCallsOf resp).map (runOneTool mgr)) }])
          (callIdx + 1) r).2.length := by omega
        obtain ⟨ha, extra, hb, hc⟩ := ih3 k hk
        refine ⟨?_, ?_⟩
        · rw [List.get_cons_succ]
          rw [ha]
          congr 1
          simp [Nat.succ_lt_succ_iff]
        · refine ⟨[{ role := "assistant", content := MessageContent.blocks resp.content },
            { role := "user",
              content := MessageContent.toolResults ((toolCallsOf resp).map (runOneTool mgr)) }]
            ++ extra, ?_, ?_⟩
          · rw [List.get_cons_succ, hb]
            simp
          · simp [hc]; omega

/-- If the first `k` responses all request tools and `k < r` rounds remain,
the `(k+1)`-st oracle call exists and still carries tool definitions. -/
theorem roundLoop_prefix_call (oracle : Oracle) (tg : Bool) (mgr : ToolManager) :
    ∀ (k r : Nat) (msgs : List Message) (callIdx : Nat), k < r →
      (∀ i, i < k → ∃ resp, oracle (callIdx + i) = Except.ok resp ∧
        requestsTools resp = true) →
      ∃ (hk : k < (roundLoop oracle tg (some mgr) msgs callIdx r).2.length),
        ((roundLoop oracle tg (some mgr) msgs callIdx r).2.get ⟨k, hk⟩).hasTools = tg := by
  intro k
  induction k with
  | zero =>
    intro r msgs callIdx hkr _
    obtain ⟨r2, rfl⟩ : ∃ r2, r = r2 + 1 := ⟨r - 1, by omega⟩
    obtain ⟨rest, hrest⟩ := roundLoop_head oracle tg (some mgr) msgs callIdx r2
    rw [hrest]
    exact ⟨by simp, rfl⟩
  | succ k ih =>
    intro r msgs callIdx hkr hreq
    obtain ⟨r2, rfl⟩ : ∃ r2, r = r2 + 1 := ⟨r - 1, by omega⟩
    obtain ⟨resp, hok, hreqt⟩ := hreq 0 (Nat.succ_pos k)
    rw [Nat.add_zero] at hok
    have hstop := requestsTools_stop resp hreqt
    have hexec := requestsTools_executeAllTools resp mgr hreqt
    rw [roundLoop_continue oracle tg mgr msgs callIdx r2 resp _ hok hstop hexec]
    have hshift : ∀ i, i < k → ∃ resp2, oracle (callIdx + 1 + i) = Except.ok resp2 ∧
        requestsTools resp2 = true := by
      intro i hi
      have := hreq (i + 1) (by omega)
      rwa [show callIdx + (i + 1) = callIdx + 1 + i by omega] at this
    obtain ⟨hk, hget⟩ := ih r2 (msgs ++
      [{ role := "assistant", content := MessageContent.blocks resp.content },
       { role := "user",
         content := MessageContent.toolResults ((toolCallsOf resp).map (runOneTool mgr)) }])
      (callIdx + 1) (by omega) hshift
    refine ⟨by simp only [List.length_cons]; omega, ?_⟩
    rw [List.get_cons_succ]
    exact hget

theorem extractTextFromBlocks_no_text (bs : List ContentBlock)
    (h : ∀ s, ContentBlock.text s ∉ bs) :
    extractTextFromBlocks bs = "I was unable to generate a response." := by
  induction bs with
  | nil => rfl
  | cons b rest ih =>
    cases b with
    | text s => exact absurd (List.mem_cons_self _ _) (h s)
    | toolUse id name input =>
      exact ih fun s hs => h s (List.mem_cons_of_mem _ hs)

/-- The assistant turn carrying the oracle's raw tool-use content followed
by the single user turn carrying the batch of tool results. -/
def toolTurns (resp : OracleResponse) (rs : List ToolResult) : List Message :=
  [{ role := "assistant", content := MessageContent.blocks resp.content },
   { role := "user", content := MessageContent.toolResults rs }]

/-! ## Concrete fixtures used by witnesses and counterexamples -/

/-- A response requesting one search tool call. -/
def respToolC : OracleResponse :=
  { stop_reason := "tool_use",
    content := [ContentBlock.toolUse "toolu_01" "search_course_content"
      [("query", "machine learning")]] }

/-- A direct text answer. -/
def respTextC : OracleResponse :=
  { stop_reason := "end_turn", content := [ContentBlock.text "Direct answer"] }

/-- A response claiming tool use but carrying no tool-call block. -/
def respEmptyToolUse : OracleResponse :=
  { stop_reason := "tool_use", content := [ContentBlock.text "thinking aloud"] }

/-- An oracle that always answers directly. -/
def oracleDirect : Oracle := fun _ => Except.ok respTextC

/-- An oracle that requests tools on every call. -/
def oracleAllTools : Oracle := fun _ => Except.ok respToolC

/-- An oracle that requests a tool on the first call and answers on later calls. -/
def oracleToolThenText : Oracle := fun n =>
  if n = 0 then Except.ok respToolC
  else Except.ok { stop_reason := "end_turn",
                   content := [ContentBlock.text "Answer after failed tool round"] }

/-- An oracle whose every response claims tool use without tool-call blocks. -/
def oracleEmptyToolUse : Oracle := fun _ => Except.ok respEmptyToolUse

/-- An oracle whose calls all raise. -/
def oracleRaise : Oracle := fun _ => Except.error "rate limited"

/-- A tool manager whose executions always succeed. -/
def okManager : ToolManager := fun _ _ => Except.ok "relevant course content"

/-- A tool manager whose executions always raise. -/
def failingManager : ToolManager := fun _ _ => Except.error "Tool failed"

/-! ## Claims -/

/-- C4: within a round, every requested tool call is executed in the order
the oracle emitted it; a per-call raise is caught individually and becomes
an error-tagged result instead of aborting the batch; the batch is appended
to the transcript as one user turn in the same order, each result tagged
with the originating call's identifier. -/
theorem c4_batch_order_error_tagging (resp : OracleResponse) (mgr : ToolManager) :
    executeAllTools resp mgr =
      (if toolCallsOf resp = [] then none
       else some ((toolCallsOf resp).map (runOneTool mgr))) ∧
    (∀ rs, executeAllTools resp mgr = some rs →
      rs.map ToolResult.tool_use_id = (toolCallsOf resp).map (fun c => c.1)) ∧
    (∀ c e, mgr c.2.1 c.2.2 = Except.error e →
      runOneTool mgr c =
        { tool_use_id := c.1, content := "Error executing tool: " ++ e,
          is_error := true }) ∧
    (∀ c res, mgr c.2.1 c.2.2 = Except.ok res →
      runOneTool mgr c = { tool_use_id := c.1, content := res, is_error := false }) ∧
    (∀ (oracle : Oracle) (tg : Bool) (msgs : List Message) (callIdx r : Nat)
      (rs : List ToolResult),
      oracle callIdx = Except.ok resp → resp.stop_reason = "tool_use" →
      executeAllTools resp mgr = some rs →
      roundLoop oracle tg (some mgr) msgs callIdx (r + 1) =
        ((roundLoop oracle tg (some mgr)
            (msgs ++ [{ role := "assistant", content := MessageContent.blocks resp.content },
                      { role := "user", content := MessageContent.toolResults rs }])
            (callIdx + 1) r).1,
         { messages := msgs, hasTools := tg } ::
         (roundLoop oracle tg (some mgr)
            (msgs ++ [{ role := "assistant", content := MessageContent.blocks resp.content },
                      { role := "user", content := MessageContent.toolResults rs }])
            (callIdx + 1) r).2)) := by
  refine ⟨executeAllTools_eq resp mgr, ?_, ?_, ?_, ?_⟩
  · intro rs hrs
    rw [executeAllTools_eq] at hrs
    by_cases hnil : toolCallsOf resp = []
    · simp [hnil] at hrs
    · simp only [hnil, if_false, Option.some.injEq] at hrs
      subst hrs
      rw [List.map_map]
      apply List.map_congr_left
      intro c _
      have hid : (runOneTool mgr c).tool_use_id = c.1 := by
        unfold runOneTool
        rcases mgr c.2.1 c.2.2 with _ | _ <;> rfl
      simpa [Function.comp_apply] using hid
  · intro c e he
    unfold runOneTool
    rw [he]
  · intro c res hres
    unfold runOneTool
    rw [hres]
  · intro oracle tg msgs callIdx r rs hok hstop hsome
    exact roundLoop_continue oracle tg mgr msgs callIdx r resp rs hok hstop hsome

theorem c4_witness :
    executeAllTools respToolC failingManager =
      (if toolCallsOf respToolC = [] then none
       else some ((toolCallsOf respToolC).map (runOneTool failingManager))) ∧
    (∀ rs, executeAllTools respToolC failingManager = some rs →
      rs.map ToolResult.tool_use_id = (toolCallsOf respToolC).map (fun c => c.1)) ∧
    (∀ c e, failingManager c.2.1 c.2.2 = Except.error e →
      runOneTool failingManager c =
        { tool_use_id := c.1, content := "Error executing tool: " ++ e,
          is_error := true }) ∧
    (∀ c res, failingManager c.2.1 c.2.2 = Except.ok res →
      runOneTool failingManager c = { tool_use_id := c.1, content := res, is_error := false }) ∧
    (∀ (oracle : Oracle) (tg : Bool) (msgs : List Message) (callIdx r : Nat)
      (rs : List ToolResult),
      oracle callIdx = Except.ok respToolC → respToolC.stop_reason = "tool_use" →
      executeAllTools respToolC failingManager = some rs →
      roundLoop oracle tg (some failingManager) msgs callIdx (r + 1) =
        ((roundLoop oracle tg (some failingManager)
            (msgs ++ [{ role := "assistant", content := MessageContent.blocks respToolC.content },
                      { role := "user", content := MessageContent.toolResults rs }])
            (callIdx + 1) r).1,
         { messages := msgs, hasTools := tg } ::
         (roundLoop oracle tg (some failingManager)
            (msgs ++ [{ role := "assistant", content := MessageContent.blocks respToolC.content },
                      { role := "user", content := MessageContent.toolResults rs }])
            (callIdx + 1) r).2)) :=
  c4_batch_order_error_tagging respToolC failingManager

/-- C5: when the oracle's first response does not request a tool call, the
Orchestrator makes exactly one oracle call and returns that response's text
verbatim. -/
theorem c5_single_call_verbatim (oracle : Oracle) (query : String)
    (tg : Bool) (tm : Option ToolManager) (maxRounds : Nat)
    (resp : OracleResponse)
    (hmax : 1 ≤ maxRounds) (h0 : oracle 0 = Except.ok resp)
    (hstop : resp.stop_reason ≠ "tool_use") :
    generate_response oracle query tg tm maxRounds =
      (Except.ok (extractTextResponse resp),
       [{ messages := [seedMsg query], hasTools := tg }]) ∧
    ∀ s rest, resp.content = ContentBlock.text s :: rest →
      (generate_response oracle query tg tm maxRounds).1 = Except.ok s := by
  obtain ⟨r, rfl⟩ : ∃ r, maxRounds = r + 1 := ⟨maxRounds - 1, by omega⟩
  unfold generate_response seedMsg
  rw [roundLoop_direct oracle tg tm _ 0 r resp h0 hstop]
  refine ⟨rfl, ?_⟩
  intro s rest hcont
  simp [extractTextResponse, hcont, extractTextFromBlocks]

theorem c5_witness :
    generate_response oracleDirect "What is 2+2?" true none 2 =
      (Except.ok (extractTextResponse respTextC),
       [{ messages := [seedMsg "What is 2+2?"], hasTools := true }]) ∧
    ∀ s rest, respTextC.content = ContentBlock.text s :: rest →
      (generate_response oracleDirect "What is 2+2?" true none 2).1 = Except.ok s :=
  c5_single_call_verbatim oracleDirect "What is 2+2?" true none 2 respTextC
    (by omega) rfl (by decide)

/-- C6: a transport failure of the oracle call during an active round
propagates to the caller unmodified; it is never converted into a fallback
answer. -/
theorem c6_transport_propagates (oracle : Oracle) (tg : Bool)
    (tm : Option ToolManager) (msgs : List Message) (callIdx r : Nat)
    (query : String) (maxRounds : Nat) (e : String)
    (h : oracle callIdx = Except.error e) :
    (roundLoop oracle tg tm msgs callIdx (r + 1)).1 = Except.error e ∧
    (oracle 0 = Except.error e → 1 ≤ maxRounds →
      (generate_response oracle query tg tm maxRounds).1 = Except.error e) := by
  constructor
  · rw [roundLoop_transport oracle tg tm msgs callIdx r e h]
  · intro h0 hmax
    obtain ⟨r2, rfl⟩ : ∃ r2, maxRounds = r2 + 1 := ⟨maxRounds - 1, by omega⟩
    unfold generate_response
    rw [roundLoop_transport oracle tg tm _ 0 r2 e h0]

theorem c6_witness :
    (roundLoop oracleRaise true (some okManager) [seedMsg "q"] 0 (1 + 1)).1 =
        Except.error "rate limited" ∧
    (oracleRaise 0 = Except.error "rate limited" → 1 ≤ 2 →
      (generate_response oracleRaise "q" true (some okManager) 2).1 =
        Except.error "rate limited") :=
  c6_transport_propagates oracleRaise true (some okManager) [seedMsg "q"] 0 1
    "q" 2 "rate limited" rfl

/-- C10: text extraction is total over oracle responses: on a response with
no text content block it returns the fixed fallback string (it neither
raises nor returns a null value), and the same extraction path is taken
when a tool-use response arrives while no tool manager was provided. -/
theorem c10_extract_total_fallback :
    (∀ resp : OracleResponse, (∀ s, ContentBlock.text s ∉ resp.content) →
      extractTextResponse resp = "I was unable to generate a response.") ∧
    (∀ (oracle : Oracle) (tg : Bool) (msgs : List Message) (callIdx r : Nat)
      (resp : OracleResponse), oracle callIdx = Except.ok resp →
      resp.stop_reason = "tool_use" →
      roundLoop oracle tg none msgs callIdx (r + 1) =
        (Except.ok (extractTextResponse resp),
         [{ messages := msgs, hasTools := tg }])) := by
  constructor
  · intro resp h
    exact extractTextFromBlocks_no_text resp.content h
  · intro oracle tg msgs callIdx r resp hok hstop
    exact roundLoop_noManager oracle tg msgs callIdx r resp hok hstop

theorem c10_witness :
    extractTextResponse respToolC = "I was unable to generate a response." ∧
    roundLoop oracleAllTools true none [seedMsg "q"] 0 (1 + 1) =
      (Except.ok (extractTextResponse respToolC),
       [{ messages := [seedMsg "q"], hasTools := true }]) :=
  ⟨c10_extract_total_fallback.1 respToolC (fun s hs => by
      simp [respToolC] at hs),
   c10_extract_total_fallback.2 oracleAllTools true [seedMsg "q"] 0 1 respToolC
      rfl rfl⟩

/-- C2: for every round count r with 1 ≤ r < maxRounds, a tool-requesting
oracle response at round r is followed by another oracle call that includes
the tool definitions; and if the oracle is still requesting tools at round
maxRounds, the call that follows carries no tool definitions at all. -/
theorem c2_tool_definitions_per_round (oracle : Oracle) (mgr : ToolManager)
    (query : String) (maxRounds r : Nat) (h1 : 1 ≤ r) (h2 : r < maxRounds)
    (hreq : ∀ i, i < r → ∃ resp, oracle i = Except.ok resp ∧
      requestsTools resp = true) :
    (∃ hk : r < (generate_response oracle query true (some mgr) maxRounds).2.length,
      ((generate_response oracle query true (some mgr) maxRounds).2.get
        ⟨r, hk⟩).hasTools = true) ∧
    ((∀ i, i < maxRounds → ∃ resp, oracle i = Except.ok resp ∧
        requestsTools resp = true) →
      ∃ hk : maxRounds <
          (generate_response oracle query true (some mgr) maxRounds).2.length,
        ((generate_response oracle query true (some mgr) maxRounds).2.get
          ⟨maxRounds, hk⟩).hasTools = false) := by
  constructor
  · unfold generate_response
    exact roundLoop_prefix_call oracle true mgr r maxRounds [seedMsg query] 0 h2
      (fun i hi => by simpa using hreq i hi)
  · intro hall
    unfold generate_response
    obtain ⟨_, hlen, hget⟩ := roundLoop_allRequest oracle true mgr maxRounds
      [seedMsg query] 0 (fun i hi => by simpa using hall i hi)
    refine ⟨by omega, ?_⟩
    obtain ⟨ht, _⟩ := hget maxRounds (by omega)
    rw [ht]
    simp

theorem c2_witness :
    (∃ hk : 1 < (generate_response oracleAllTools "q" true (some okManager) 2).2.length,
      ((generate_response oracleAllTools "q" true (some okManager) 2).2.get
        ⟨1, hk⟩).hasTools = true) ∧
    ((∀ i, i < 2 → ∃ resp, oracleAllTools i = Except.ok resp ∧
        requestsTools resp = true) →
      ∃ hk : 2 < (generate_response oracleAllTools "q" true (some okManager) 2).2.length,
        ((generate_response oracleAllTools "q" true (some okManager) 2).2.get
          ⟨2, hk⟩).hasTools = false) :=
  c2_tool_definitions_per_round oracleAllTools okManager "q" 2 1 (by omega)
    (by omega) (fun i _ => ⟨respToolC, rfl, by decide⟩)

/-- C3: the round loop always terminates after at most maxRounds
tool-capable oracle calls (maxRounds + 1 calls in total); when the oracle
requests tools on every round, exactly one additional call is issued with
the accumulated transcript and no tool definitions, and the returned value
is that call's text — or the fixed fallback apology if that call raises. -/
theorem c3_termination_forced_final (oracle : Oracle) (query : String)
    (mgr : ToolManager) (maxRounds : Nat)
    (hall : ∀ i, i < maxRounds → ∃ resp, oracle i = Except.ok resp ∧
      requestsTools resp = true) :
    (∀ (oracle2 : Oracle) (tg : Bool) (tm : Option ToolManager),
      (generate_response oracle2 query tg tm maxRounds).2.length ≤ maxRounds + 1 ∧
      (generate_response oracle2 query tg tm maxRounds).2.countP
        (fun c => c.hasTools) ≤ maxRounds) ∧
    (generate_response oracle query true (some mgr) maxRounds).2.length =
      maxRounds + 1 ∧
    (∃ hk : maxRounds <
        (generate_response oracle query true (some mgr) maxRounds).2.length,
      ((generate_response oracle query true (some mgr) maxRounds).2.get
        ⟨maxRounds, hk⟩).hasTools = false ∧
      ∃ extra, ((generate_response oracle query true (some mgr) maxRounds).2.get
          ⟨maxRounds, hk⟩).messages = [seedMsg query] ++ extra ∧
        extra.length = 2 * maxRounds) ∧
    (generate_response oracle query true (some mgr) maxRounds).1 =
      forcedFinalResult oracle maxRounds := by
  obtain ⟨hres, hlen, hget⟩ := roundLoop_allRequest oracle true mgr maxRounds
    [seedMsg query] 0 (fun i hi => by simpa using hall i hi)
  simp only [generate_response]
  refine ⟨?_, hlen, ?_, ?_⟩
  · intro oracle2 tg tm
    exact roundLoop_calls_bound oracle2 tg tm maxRounds [seedMsg query] 0
  · refine ⟨by omega, ?_⟩
    obtain ⟨ht, extra, hmsg, helen⟩ := hget maxRounds (by omega)
    exact ⟨by rw [ht]; simp, extra, hmsg, helen⟩
  · rw [hres, Nat.zero_add]

theorem c3_witness :
    (∀ (oracle2 : Oracle) (tg : Bool) (tm : Option ToolManager),
      (generate_response oracle2 "q" tg tm 2).2.length ≤ 2 + 1 ∧
      (generate_response oracle2 "q" tg tm 2).2.countP
        (fun c => c.hasTools) ≤ 2) ∧
    (generate_response oracleAllTools "q" true (some okManager) 2).2.length = 2 + 1 ∧
    (∃ hk : 2 < (generate_response oracleAllTools "q" true (some okManager) 2).2.length,
      ((generate_response oracleAllTools "q" true (some okManager) 2).2.get
        ⟨2, hk⟩).hasTools = false ∧
      ∃ extra, ((generate_response oracleAllTools "q" true (some okManager) 2).2.get
          ⟨2, hk⟩).messages = [seedMsg "q"] ++ extra ∧
        extra.length = 2 * 2) ∧
    (generate_response oracleAllTools "q" true (some okManager) 2).1 =
      forcedFinalResult oracleAllTools 2 :=
  c3_termination_forced_final oracleAllTools "q" okManager 2
    (fun i _ => ⟨respToolC, rfl, by decide⟩)

/-- C1 counterexample: a round in which every requested tool call fails does
NOT short-circuit with the user-facing apology; the error-tagged results are
fed back and the loop spends another round. Here the single requested call
fails, yet a second oracle call is made and its text is returned. -/
theorem c1_counterexample :
    (generate_response oracleToolThenText "compare" true (some failingManager) 2).1 =
        Except.ok "Answer after failed tool round" ∧
    (generate_response oracleToolThenText "compare" true (some failingManager) 2).2.length = 2 ∧
    (generate_response oracleToolThenText "compare" true (some failingManager) 2).1 ≠
        Except.ok "I encountered an error while searching. Please try rephrasing your question." := by
  refine ⟨rfl, rfl, ?_⟩
  intro hcontra
  rw [show (generate_response oracleToolThenText "compare" true
    (some failingManager) 2).1 = Except.ok "Answer after failed tool round" from rfl]
    at hcontra
  exact absurd (Except.ok.inj hcontra) (by decide)

/-- C1 (amended): the short-circuit with the user-facing apology fires
exactly when a tool-use response yields no tool results at all — that is,
when it contains no tool-call block; a round whose requested calls all fail
instead appends their error-tagged results and continues to the next
round. -/
theorem c1_amended_no_results_shortcircuit (oracle : Oracle) (tg : Bool)
    (mgr : ToolManager) (msgs : List Message) (callIdx r : Nat)
    (resp : OracleResponse)
    (hok : oracle callIdx = Except.ok resp)
    (hstop : resp.stop_reason = "tool_use") :
    (resp.content.any ContentBlock.isToolUse = false →
      roundLoop oracle tg (some mgr) msgs callIdx (r + 1) =
        (Except.ok "I encountered an error while searching. Please try rephrasing your question.",
         [{ messages := msgs, hasTools := tg }])) ∧
    (toolCallsOf resp ≠ [] →
      (∀ c, c ∈ toolCallsOf resp → (runOneTool mgr c).is_error = true) →
      roundLoop oracle tg (some mgr) msgs callIdx (r + 1) =
        ((roundLoop oracle tg (some mgr)
            (msgs ++ toolTurns resp ((toolCallsOf resp).map (runOneTool mgr)))
            (callIdx + 1) r).1,
         { messages := msgs, hasTools := tg } ::
         (roundLoop oracle tg (some mgr)
            (msgs ++ toolTurns resp ((toolCallsOf resp).map (runOneTool mgr)))
            (callIdx + 1) r).2)) := by
  constructor
  · intro hnoblocks
    have hnone : executeAllTools resp mgr = none := by
      rw [executeAllTools_eq_none, toolCallsOf_nil_iff]
      exact hnoblocks
    exact roundLoop_noResults oracle tg mgr msgs callIdx r resp hok hstop hnone
  · intro hne _
    have hsome : executeAllTools resp mgr =
        some ((toolCallsOf resp).map (runOneTool mgr)) := by
      rw [executeAllTools_eq]
      simp [hne]
    exact roundLoop_continue oracle tg mgr msgs callIdx r resp _ hok hstop hsome

theorem c1_amended_witness :
    (respEmptyToolUse.content.any ContentBlock.isToolUse = false →
      roundLoop oracleEmptyToolUse true (some failingManager) [seedMsg "q"] 0 (1 + 1) =
        (Except.ok "I encountered an error while searching. Please try rephrasing your question.",
         [{ messages := [seedMsg "q"], hasTools := true }])) ∧
    (toolCallsOf respEmptyToolUse ≠ [] →
      (∀ c, c ∈ toolCallsOf respEmptyToolUse →
        (runOneTool failingManager c).is_error = true) →
      roundLoop oracleEmptyToolUse true (some failingManager) [seedMsg "q"] 0 (1 + 1) =
        ((roundLoop oracleEmptyToolUse true (some failingManager)
            ([seedMsg "q"] ++ toolTurns respEmptyToolUse
              ((toolCallsOf respEmptyToolUse).map (runOneTool failingManager)))
            (0 + 1) 1).1,
         { messages := [seedMsg "q"], hasTools := true } ::
         (roundLoop oracleEmptyToolUse true (some failingManager)
            ([seedMsg "q"] ++ toolTurns respEmptyToolUse
              ((toolCallsOf respEmptyToolUse).map (runOneTool failingManager)))
            (0 + 1) 1).2)) :=
  c1_amended_no_results_shortcircuit oracleEmptyToolUse true failingManager
    [seedMsg "q"] 0 1 respEmptyToolUse rfl rfl

/-- C7: the search filter builder yields, for the four input combinations:
no constraint; the single equality constraint on the course title; the
single equality constraint on the lesson number; and a `$and` conjunction
containing exactly those two equality constraints. -/
theorem c7_filter_four_cases (x : String) (n : Int) :
    build_filter none none = none ∧
    build_filter (some x) none = some (WhereClause.course_title x) ∧
    build_filter none (some n) = some (WhereClause.lesson_number n) ∧
    build_filter (some x) (some n) =
      some (WhereClause.opAnd
        [WhereClause.course_title x, WhereClause.lesson_number n]) :=
  ⟨rfl, rfl, rfl, rfl⟩

/-- C8: for every result set produced by the retrieval store's search, a set
error implies an empty document sequence; and an empty result without error
is distinguishable from an empty result carrying an error. -/
theorem c8_error_implies_empty (idx : VectorIndex) (query : String)
    (course_name : Option String) (lesson_number : Option Int) (limit : Nat) :
    ((search idx query course_name lesson_number limit).error.isSome →
      (search idx query course_name lesson_number limit).documents = []) ∧
    (∀ msg, (SearchResults.emptyErr msg).documents = [] ∧
      (SearchResults.emptyErr msg).error = some msg) ∧
    SearchResults.emptyErr "No documents found" ≠
      { documents := [], metadata := [], distances := [], error := none } := by
  refine ⟨?_, fun msg => ⟨rfl, rfl⟩, by simp [SearchResults.emptyErr]⟩
  unfold search
  cases course_name with
  | none =>
    cases h : idx.runQuery query (build_filter none lesson_number) limit with
    | error e => simp [h, SearchResults.emptyErr]
    | ok hits => simp [h, SearchResults.ofHits]
  | some name =>
    cases hres : idx.resolveCourseName name with
    | none => simp [hres, SearchResults.emptyErr]
    | some title =>
      cases h : idx.runQuery query (build_filter (some title) lesson_number) limit with
      | error e => simp [hres, h, SearchResults.emptyErr]
      | ok hits => simp [hres, h, SearchResults.ofHits]

/-- An index whose catalog matches nothing and whose content query succeeds
with no hits. -/
def idxNoMatch : VectorIndex :=
  { resolveCourseName := fun _ => none
    runQuery := fun _ _ _ => Except.ok [] }

theorem c8_witness :
    ((search idxNoMatch "q" (some "Quantum Biochemistry") none 5).error.isSome →
      (search idxNoMatch "q" (some "Quantum Biochemistry") none 5).documents = []) ∧
    (∀ msg, (SearchResults.emptyErr msg).documents = [] ∧
      (SearchResults.emptyErr msg).error = some msg) ∧
    SearchResults.emptyErr "No documents found" ≠
      { documents := [], metadata := [], distances := [], error := none } :=
  c8_error_implies_empty idxNoMatch "q" (some "Quantum Biochemistry") none 5

/-! ## Session eviction lemmas -/

theorem addExchanges_no_evict (maxExchanges : Nat) :
    ∀ (es : List Exchange) (log : List Exchange),
      log.length + es.length ≤ maxExchanges →
      addExchanges maxExchanges log es = log ++ es := by
  intro es
  induction es with
  | nil => intro log _; simp [addExchanges]
  | cons e rest ih =>
    intro log hlen
    have hstep : add_exchange maxExchanges log e.query e.answer = log ++ [e] := by
      simp only [add_exchange]
      have hle : (log ++ [({ query := e.query, answer := e.answer } : Exchange)]).length
          ≤ maxExchanges := by
        simp only [List.length_append, List.length_singleton]
        simp only [List.length_cons] at hlen
        omega
      rw [if_neg (by omega : ¬ (log ++
        [({ query := e.query, answer := e.answer } : Exchange)]).length > maxExchanges)]
    show List.foldl (fun l x => add_exchange maxExchanges l x.query x.answer)
      log (e :: rest) = log ++ e :: rest
    rw [List.foldl_cons, hstep]
    have h2 := ih (log ++ [e]) (by
      simp only [List.length_append, List.length_singleton]
      simp only [List.length_cons] at hlen
      omega)
    show addExchanges maxExchanges (log ++ [e]) rest = log ++ e :: rest
    rw [h2]
    simp

/-- C9: after adding maxExchanges + 1 exchanges to an empty session log, the
log holds exactly the most recent maxExchanges exchanges in their original
order, and (when the exchanges are pairwise distinct) the oldest one is
absent: eviction removes the oldest entry, never the newly added one. -/
theorem c9_fifo_eviction (maxExchanges : Nat) (es : List Exchange)
    (hlen : es.length = maxExchanges + 1) :
    addExchanges maxExchanges [] es = es.drop 1 ∧
    (es.Nodup → ∀ e0, es.head? = some e0 →
      e0 ∉ addExchanges maxExchanges [] es) := by
  have hne : es ≠ [] := by
    intro h; rw [h] at hlen; simp at hlen
  have hmain : addExchanges maxExchanges [] es = es.drop 1 := by
    obtain ⟨init, last, rfl⟩ : ∃ init last, es = init ++ [last] := by
      refine ⟨es.dropLast, es.getLast hne, ?_⟩
      rw [List.dropLast_append_getLast hne]
    have hinitlen : init.length = maxExchanges := by
      simp at hlen; omega
    unfold addExchanges
    rw [List.foldl_append]
    have hinit : addExchanges maxExchanges [] init = init :=
      addExchanges_no_evict maxExchanges init [] (by simp [hinitlen])
    unfold addExchanges at hinit
    rw [hinit]
    simp only [List.foldl_cons, List.foldl_nil]
    simp only [add_exchange]
    have hgt : (init ++ [({ query := last.query, answer := last.answer } : Exchange)]).length
        > maxExchanges := by
      simp [hinitlen]
    rw [if_pos hgt]
    have heta : ({ query := last.query, answer := last.answer } : Exchange) = last := rfl
    rw [heta]
    congr 1
    simp [hinitlen]
  refine ⟨hmain, ?_⟩
  intro hnodup e0 hhead hmem
  rw [hmain] at hmem
  cases es with
  | nil => exact hne rfl
  | cons a t =>
    simp only [List.head?_cons, Option.some.injEq] at hhead
    subst hhead
    simp only [List.drop_one, List.tail_cons] at hmem
    exact (List.nodup_cons.mp hnodup).1 hmem

theorem c9_witness :
    addExchanges 2 [] [{ query := "q1", answer := "a1" },
      { query := "q2", answer := "a2" }, { query := "q3", answer := "a3" }] =
      [{ query := "q2", answer := "a2" }, { query := "q3", answer := "a3" }] ∧
    ({ query := "q1", answer := "a1" } : Exchange) ∉
      addExchanges 2 [] [{ query := "q1", answer := "a1" },
        { query := "q2", answer := "a2" }, { query := "q3", answer := "a3" }] := by
  have h := c9_fifo_eviction 2 [{ query := "q1", answer := "a1" },
    { query := "q2", answer := "a2" }, { query := "q3", answer := "a3" }] (by decide)
  exact ⟨h.1, h.2 (by decide) _ rfl⟩

end RagChatbot
